import Mathlib

/-!
Verification development for the DeepParse evaluation dashboard.

The definitions below are a shallow embedding of the TypeScript dashboard
code: JavaScript numbers are modelled as rationals, `Math.round` as the
round-half-up function on rationals, JavaScript string comparison as
lexicographic `String` order, nullable fields as `Option`, and the
string-keyed `Record` objects as association lists in insertion order.
Definitions carrying a doc comment starting with "Modelled from the spec"
embed components of the repository that are not among the provided
sources and follow the specification text instead.
-/

/-- JavaScript `Math.round`: round half toward positive infinity. -/
def jsRound (q : ℚ) : ℤ := ⌊q + 1/2⌋

/-- JavaScript truthiness of a nullable string: `null` and `""` are falsy. -/
def strTruthy : Option String → Bool
  | none => false
  | some s => !(s == "")

/-- JavaScript `a || b` on nullable strings. -/
def strOr (a b : Option String) : Option String :=
  if strTruthy a then a else b

/-- Timestamp merge from `aggregateCaches` (useEvaluationData.ts lines 74-76):
`m && e ? (m > e ? m : e) : (m || e)` with lexicographic string comparison. -/
def tsMerge (mts ets : Option String) : Option String :=
  match mts, ets with
  | some mt, some et =>
      if mt ≠ "" ∧ et ≠ "" then some (if et < mt then mt else et)
      else strOr (some mt) (some et)
  | mt?, et? => strOr mt? et?

/-- One run-history entry (types.ts `RunHistoryEntry`). -/
structure RunHistoryEntry where
  timestamp : String
  overall_score : ℚ
  schema_compliance : ℚ
  structural_accuracy : ℚ
  semantic_accuracy : ℚ
  config_accuracy : ℚ
  cost : Option ℚ
  input_tokens : Option ℕ
  output_tokens : Option ℕ
  deriving Repr, DecidableEq

/-- Per (source document, model) running statistics (types.ts `CachedModelResult`). -/
structure CachedModelResult where
  model_id : String
  provider : String
  run_count : ℕ
  total_schema_compliance : ℚ
  total_structural_accuracy : ℚ
  total_semantic_accuracy : ℚ
  total_config_accuracy : ℚ
  total_overall_score : ℚ
  total_cost : ℚ
  total_input_tokens : ℕ
  total_output_tokens : ℕ
  best_score : ℚ
  best_run_timestamp : Option String
  latest_score : ℚ
  latest_run_timestamp : Option String
  run_history : List RunHistoryEntry
  deriving Repr, DecidableEq

/-- One per-source-document ledger (types.ts `EvaluationCache`); the `models`
record is kept as an association list in insertion order. -/
structure EvaluationCache where
  source_file : String
  last_updated : String
  models : List (String × CachedModelResult)
  deriving Repr, DecidableEq

/-- One row of chart data (types.ts `ModelChartData`); the percentage fields
hold `Math.round` results. The TypeScript field `structure` is named
`structure_` here because `structure` is a Lean keyword. -/
structure ModelChartData where
  key : String
  name : String
  provider : String
  overall : ℤ
  schema : ℤ
  structure_ : ℤ
  semantic : ℤ
  config : ℤ
  runCount : ℕ
  totalCost : ℚ
  averageCost : ℚ
  totalInputTokens : ℕ
  totalOutputTokens : ℕ
  deriving Repr, DecidableEq

/-- The body of the `map` in `transformToChartData` (useEvaluationData.ts
lines 25-47); also the body of the final `map` of `aggregateCaches`
(lines 86-108), which is textually identical. -/
def datumOfModel (kv : String × CachedModelResult) : ModelChartData :=
  let m := kv.2
  let avgScore : ℚ := if 0 < m.run_count then m.total_overall_score / m.run_count else 0
  let avgSchema : ℚ := if 0 < m.run_count then m.total_schema_compliance / m.run_count else 0
  let avgStructure : ℚ := if 0 < m.run_count then m.total_structural_accuracy / m.run_count else 0
  let avgSemantic : ℚ := if 0 < m.run_count then m.total_semantic_accuracy / m.run_count else 0
  let avgConfig : ℚ := if 0 < m.run_count then m.total_config_accuracy / m.run_count else 0
  let avgCost : ℚ := if 0 < m.run_count then m.total_cost / m.run_count else 0
  { key := kv.1
    name := m.model_id
    provider := m.provider
    overall := jsRound (avgScore * 100)
    schema := jsRound (avgSchema * 100)
    structure_ := jsRound (avgStructure * 100)
    semantic := jsRound (avgSemantic * 100)
    config := jsRound (avgConfig * 100)
    runCount := m.run_count
    totalCost := m.total_cost
    averageCost := avgCost
    totalInputTokens := m.total_input_tokens
    totalOutputTokens := m.total_output_tokens }

/-- Ordering used by the final `.sort((a, b) => b.overall - a.overall)`:
descending in the rounded overall percentage. -/
def chartGE (a b : ModelChartData) : Prop := b.overall ≤ a.overall

instance : DecidableRel chartGE := fun a b => inferInstanceAs (Decidable (b.overall ≤ a.overall))

instance : IsTotal ModelChartData chartGE := ⟨fun a b => le_total b.overall a.overall⟩

instance : IsTrans ModelChartData chartGE := ⟨fun _ _ _ h1 h2 => le_trans h2 h1⟩

/-- The JavaScript `Array.prototype.sort` call with comparator
`(a, b) => b.overall - a.overall`: a stable sort into non-increasing
`overall` order. -/
def sortByOverallDesc (l : List ModelChartData) : List ModelChartData :=
  l.insertionSort chartGE

/-- `transformToChartData` (useEvaluationData.ts lines 24-49). -/
def transformToChartData (cache : EvaluationCache) : List ModelChartData :=
  sortByOverallDesc (cache.models.map datumOfModel)

/-- The merge branch of `aggregateCaches` (useEvaluationData.ts lines 61-77):
spread of `existing` with summed counts and totals, `best_score` by maximum,
`latest_score` by maximum of the two scores, and `latest_run_timestamp` by
lexicographic maximum of the two timestamps. -/
def mergeModels (existing m : CachedModelResult) : CachedModelResult :=
  { existing with
    run_count := existing.run_count + m.run_count
    total_schema_compliance := existing.total_schema_compliance + m.total_schema_compliance
    total_structural_accuracy := existing.total_structural_accuracy + m.total_structural_accuracy
    total_semantic_accuracy := existing.total_semantic_accuracy + m.total_semantic_accuracy
    total_config_accuracy := existing.total_config_accuracy + m.total_config_accuracy
    total_overall_score := existing.total_overall_score + m.total_overall_score
    total_cost := existing.total_cost + m.total_cost
    total_input_tokens := existing.total_input_tokens + m.total_input_tokens
    total_output_tokens := existing.total_output_tokens + m.total_output_tokens
    best_score := max existing.best_score m.best_score
    latest_score := if existing.latest_score < m.latest_score then m.latest_score else existing.latest_score
    latest_run_timestamp := tsMerge m.latest_run_timestamp existing.latest_run_timestamp }

/-- Lookup in an association list modelling a JavaScript object
(`aggregated[key]`). -/
def lookupA (k : String) : List (String × CachedModelResult) → Option CachedModelResult
  | [] => none
  | p :: t => if p.1 = k then some p.2 else lookupA k t

/-- Processing one `[key, model]` entry inside `aggregateCaches`
(useEvaluationData.ts lines 57-82): merge into the existing entry when the
key is present, otherwise append a copy, preserving object-key insertion
order. -/
def stepEntry (agg : List (String × CachedModelResult)) (kv : String × CachedModelResult) :
    List (String × CachedModelResult) :=
  match lookupA kv.1 agg with
  | some _ => agg.map (fun p => if p.1 = kv.1 then (p.1, mergeModels p.2 kv.2) else p)
  | none => agg ++ [kv]

/-- Processing one cache inside `aggregateCaches`: fold over its model
entries. -/
def processCache (agg : List (String × CachedModelResult)) (c : EvaluationCache) :
    List (String × CachedModelResult) :=
  c.models.foldl stepEntry agg

/-- The `aggregated` record built by `aggregateCaches`
(useEvaluationData.ts lines 52-83), as an association list. -/
def aggEntries (caches : List EvaluationCache) : List (String × CachedModelResult) :=
  caches.foldl processCache []

/-- `aggregateCaches` (useEvaluationData.ts lines 52-110): merge all caches
by model key, then map to chart data and sort descending by overall. -/
def aggregateCaches (caches : List EvaluationCache) : List ModelChartData :=
  sortByOverallDesc ((aggEntries caches).map datumOfModel)

/-- A cache as a JavaScript object has no duplicate model keys. -/
def keysNodup (c : EvaluationCache) : Prop := (c.models.map Prod.fst).Nodup

instance (c : EvaluationCache) : Decidable (keysNodup c) :=
  inferInstanceAs (Decidable (c.models.map Prod.fst).Nodup)

/-- Summary row returned by `/api/evaluations` (index.ts `getEvaluationsSummary`). -/
structure EvaluationSummary where
  source_file : String
  last_updated : String
  model_count : ℕ
  best_model : Option String
  best_score : Option ℚ
  average_score : Option ℚ
  deriving Repr, DecidableEq

/-- The loop body of the best-model search in `getEvaluationsSummary`
(index.ts lines 72-77): take an entry only when its `best_score` is
strictly greater than the accumulator. -/
def bestStep (acc : Option String × ℚ) (kv : String × CachedModelResult) : Option String × ℚ :=
  if acc.2 < kv.2.best_score then (some kv.1, kv.2.best_score) else acc

/-- The best-model fold of `getEvaluationsSummary` (index.ts lines 70-77),
starting from `(null, 0)`. -/
def bestFold (models : List (String × CachedModelResult)) : Option String × ℚ :=
  models.foldl bestStep (none, 0)

/-- One element of `getEvaluationsSummary` (index.ts lines 62-87): per-model
averages `total_overall_score / run_count`, their mean as `average_score`
(null when there are no models), and the best model by strict maximum with
`bestScore || null` reporting. -/
def evalSummaryOf (c : EvaluationCache) : EvaluationSummary :=
  let scores := c.models.map (fun kv => kv.2.total_overall_score / (kv.2.run_count : ℚ))
  let avgScore : Option ℚ :=
    if 0 < scores.length then some (scores.sum / (scores.length : ℚ)) else none
  let best := bestFold c.models
  { source_file := c.source_file
    last_updated := c.last_updated
    model_count := c.models.length
    best_model := best.1
    best_score := if best.2 = 0 then none else some best.2
    average_score := avgScore }

/-- The fields of a raw ledger JSON model entry that the documents server
reads defensively (part_002 `loadCache` lines 264-269); either may be
absent from alien JSON, hence `Option`. -/
structure JsonModelEntry where
  latest_score : Option ℚ
  best_score : Option ℚ
  deriving Repr, DecidableEq

/-- A raw parsed ledger file as seen by the documents server. -/
structure JsonCache where
  source_file : String
  models : List (String × JsonModelEntry)
  deriving Repr, DecidableEq

/-- `model.latest_score ?? model.best_score ?? null` (part_002 line 265). -/
def modelScoreOf (e : JsonModelEntry) : Option ℚ :=
  match e.latest_score with
  | some s => some s
  | none => e.best_score

/-- The loop body of the best-score computation in `loadCache`
(part_002 lines 264-270): a model without a score is skipped; a score
replaces the running best only when strictly greater. -/
def docBestStep (best : Option ℚ) (kv : String × JsonModelEntry) : Option ℚ :=
  match modelScoreOf kv.2 with
  | none => best
  | some s =>
    match best with
    | none => some s
    | some b => if b < s then some s else best

/-- The per-document best score computed by `loadCache`
(part_002 lines 261-270): running strict maximum of the per-model scores. -/
def docBestScore (models : List (String × JsonModelEntry)) : Option ℚ :=
  models.foldl docBestStep none

/-- The per-document average score computed by `loadCache`
(part_002 lines 263-273): mean of the collected per-model scores. -/
def docAvgScore (models : List (String × JsonModelEntry)) : Option ℚ :=
  let scores := models.filterMap (fun kv => modelScoreOf kv.2)
  if 0 < scores.length then some (scores.sum / (scores.length : ℚ)) else none

/-- State of the ledger file on disk, as distinguished by `readJsonFile`
(part_002 lines 131-141): missing, present but unreadable or corrupt
(reading or `JSON.parse` throws), or present with valid content. -/
inductive FileContent where
  | absent
  | invalid
  | valid (c : JsonCache)
  deriving Repr, DecidableEq

/-- `readJsonFile` (part_002 lines 131-141): `null` when the file does not
exist; `null` (after logging) when reading or parsing throws; the parsed
value otherwise. Fallibility is embedded as the `Option` result — the
function is total and never propagates an error. -/
def readJsonFile : FileContent → Option JsonCache
  | .absent => none
  | .invalid => none
  | .valid c => some c

/-- A loaded cache with the helper fields `loadCache` precomputes. -/
structure LoadedCache where
  cache : JsonCache
  best_score : Option ℚ
  average_score : Option ℚ
  deriving Repr, DecidableEq

/-- `loadCache` (part_002 lines 254-276): `null` when `readJsonFile` yields
`null`, otherwise the cache with precomputed best and average scores. -/
def loadCache (f : FileContent) : Option LoadedCache :=
  match readJsonFile f with
  | none => none
  | some c => some { cache := c, best_score := docBestScore c.models, average_score := docAvgScore c.models }

/-- The `best_score` field of one PDF row in `listAvailablePdfs`
(part_002 lines 181-191): `cache.best_score ?? cache.average_score ?? null`,
then `bestScore ? Math.round(bestScore * 100) : null` (0 is falsy). -/
def pdfBestDisplay (f : FileContent) : Option ℤ :=
  match loadCache f with
  | none => none
  | some lc =>
    let b : Option ℚ :=
      match lc.best_score with
      | some x => some x
      | none => lc.average_score
    match b with
    | none => none
    | some x => if x = 0 then none else some (jsRound (x * 100))

/-- Weight of schema compliance: the literal `0.15` of
StackedChart (part_004 line 34, part_005 line 32). -/
def schemaWeight : ℚ := 15/100

/-- Weight of structural accuracy: the literal `0.20` of
StackedChart (part_004 line 35, part_005 line 33). -/
def structureWeight : ℚ := 20/100

/-- Weight of semantic accuracy: the literal `0.30` of
StackedChart (part_004 line 36, part_005 line 34). -/
def semanticWeight : ℚ := 30/100

/-- Weight of config accuracy: the literal `0.35` of
StackedChart (part_004 line 37, part_005 line 35). -/
def configWeight : ℚ := 35/100

/-- One bar of the stacked chart (part_004 lines 29-39, part_005 lines 27-37). -/
structure StackedDatum where
  name : String
  fullName : String
  provider : String
  schema : ℤ
  structure_ : ℤ
  semantic : ℤ
  config : ℤ
  total : ℤ
  deriving Repr, DecidableEq

/-- The `stackedData` map body of `StackedChart` (part_004 lines 29-39 and
part_005 lines 27-37): each displayed category percentage is weighted by the
corresponding aggregate weight and rounded. -/
def stackedDatumOf (d : ModelChartData) : StackedDatum :=
  { name := if 20 < d.name.length then String.mk (d.name.toList.take 17) ++ "..." else d.name
    fullName := d.name
    provider := d.provider
    schema := jsRound ((d.schema : ℚ) * schemaWeight)
    structure_ := jsRound ((d.structure_ : ℚ) * structureWeight)
    semantic := jsRound ((d.semantic : ℚ) * semanticWeight)
    config := jsRound ((d.config : ℚ) * configWeight)
    total := d.overall }

/-- Document-level aggregate scores (types.ts `AggregateScores`). -/
structure AggregateScores where
  schema_compliance : ℚ
  structural_accuracy : ℚ
  semantic_accuracy : ℚ
  config_accuracy : ℚ
  overall_score : ℚ
  deriving Repr, DecidableEq

/-- Modelled from the spec: the `AggregateScorer` combination step of
`scorer.py`, which is not among the provided sources (the chart code cites
its `AGGREGATE_WEIGHTS`). Spec 4.3: overall_score = 0.15·schema_compliance
+ 0.20·structural_accuracy + 0.30·semantic_accuracy + 0.35·config_accuracy. -/
def aggregateScorer (schema_compliance structural_accuracy semantic_accuracy config_accuracy : ℚ) :
    AggregateScores :=
  { schema_compliance := schema_compliance
    structural_accuracy := structural_accuracy
    semantic_accuracy := semantic_accuracy
    config_accuracy := config_accuracy
    overall_score := schemaWeight * schema_compliance + structureWeight * structural_accuracy
      + semanticWeight * semantic_accuracy + configWeight * config_accuracy }

/-- Modelled from the spec: how `EvaluationCache.record` creates a new
model entry (`evaluation/cache.py` is not among the provided sources).
Spec 4.4: if the key is new, a fresh CachedModelResult with run_count 0
is created. -/
def initModel (mid prov : String) : CachedModelResult :=
  { model_id := mid
    provider := prov
    run_count := 0
    total_schema_compliance := 0
    total_structural_accuracy := 0
    total_semantic_accuracy := 0
    total_config_accuracy := 0
    total_overall_score := 0
    total_cost := 0
    total_input_tokens := 0
    total_output_tokens := 0
    best_score := 0
    best_run_timestamp := none
    latest_score := 0
    latest_run_timestamp := none
    run_history := [] }

/-- Modelled from the spec: the per-model part of `EvaluationCache.record`
(`evaluation/cache.py` is not among the provided sources). Spec 4.4: append
a RunHistoryEntry, increment run_count, add each score/cost/token field into
the corresponding running total, update best_score by maximum (with its
timestamp on change) and latest_score/latest_run_timestamp unconditionally. -/
def recordRun (m : CachedModelResult) (e : RunHistoryEntry) : CachedModelResult :=
  { m with
    run_count := m.run_count + 1
    run_history := m.run_history ++ [e]
    total_schema_compliance := m.total_schema_compliance + e.schema_compliance
    total_structural_accuracy := m.total_structural_accuracy + e.structural_accuracy
    total_semantic_accuracy := m.total_semantic_accuracy + e.semantic_accuracy
    total_config_accuracy := m.total_config_accuracy + e.config_accuracy
    total_overall_score := m.total_overall_score + e.overall_score
    total_cost := m.total_cost + e.cost.getD 0
    total_input_tokens := m.total_input_tokens + e.input_tokens.getD 0
    total_output_tokens := m.total_output_tokens + e.output_tokens.getD 0
    best_score := max m.best_score e.overall_score
    best_run_timestamp := if m.best_score < e.overall_score then some e.timestamp else m.best_run_timestamp
    latest_score := e.overall_score
    latest_run_timestamp := some e.timestamp }

/-- The ledger bookkeeping invariant of `CachedModelResult`: the run count is
the history length and every running total is the sum of the corresponding
field over the history. -/
def cacheInvariant (m : CachedModelResult) : Prop :=
  m.run_count = m.run_history.length ∧
  m.total_overall_score = (m.run_history.map (fun h => h.overall_score)).sum ∧
  m.total_schema_compliance = (m.run_history.map (fun h => h.schema_compliance)).sum ∧
  m.total_structural_accuracy = (m.run_history.map (fun h => h.structural_accuracy)).sum ∧
  m.total_semantic_accuracy = (m.run_history.map (fun h => h.semantic_accuracy)).sum ∧
  m.total_config_accuracy = (m.run_history.map (fun h => h.config_accuracy)).sum ∧
  m.total_cost = (m.run_history.map (fun h => h.cost.getD 0)).sum ∧
  m.total_input_tokens = (m.run_history.map (fun h => h.input_tokens.getD 0)).sum ∧
  m.total_output_tokens = (m.run_history.map (fun h => h.output_tokens.getD 0)).sum

instance (m : CachedModelResult) : Decidable (cacheInvariant m) :=
  inferInstanceAs (Decidable (_ ∧ _))

/-- Server-side pipeline run state (index.ts lines 19-20): the
`pipelineRunning` flag, together with the number of spawned pipeline
processes that have not yet exited (a ghost counter for the liveness of
the single `pipelineProcess`). -/
structure ServerState where
  pipelineRunning : Bool
  activeRuns : ℕ
  deriving Repr, DecidableEq

/-- Handling a POST to `/api/run` together with the synchronous prefix of
`runPipeline` (index.ts lines 94-112 and 248-261): when the flag is set the
request is rejected and nothing changes; otherwise the flag is set and one
process is spawned. The Boolean result records whether a process was
spawned. -/
def postRun (s : ServerState) : ServerState × Bool :=
  if s.pipelineRunning then (s, false)
  else ({ pipelineRunning := true, activeRuns := s.activeRuns + 1 }, true)

/-- The in-progress pipeline process exiting or failing (index.ts lines
184-187 and 199-201): both the exit path and the catch path clear the flag
and drop the process. -/
def finishRun (s : ServerState) : ServerState :=
  { pipelineRunning := false, activeRuns := s.activeRuns - 1 }

/-- States the dashboard server can reach: the initial state, a handled run
request, or an active process finishing. -/
inductive ReachableState : ServerState → Prop
  | init : ReachableState ⟨false, 0⟩
  | post {s : ServerState} : ReachableState s → ReachableState (postRun s).1
  | finish {s : ServerState} : ReachableState s → 1 ≤ s.activeRuns → ReachableState (finishRun s)

/-- Merge a model into an optional accumulator: the two branches of the
`if (aggregated[key])` in `aggregateCaches`. -/
def mergeOpt (o : Option CachedModelResult) (m : CachedModelResult) : CachedModelResult :=
  match o with
  | some e => mergeModels e m
  | none => m

/-- The effect of one cache on the aggregated entry of key `k`. -/
def perKeyStep (k : String) (acc : Option CachedModelResult) (c : EvaluationCache) :
    Option CachedModelResult :=
  match lookupA k c.models with
  | none => acc
  | some m => some (mergeOpt acc m)

/-- The per-key result of folding the aggregation over a list of caches. -/
def perKeyAgg (k : String) (caches : List EvaluationCache) : Option CachedModelResult :=
  caches.foldl (perKeyStep k) none

theorem lookupA_eq_none_of_not_mem {k : String} :
    ∀ {l : List (String × CachedModelResult)}, k ∉ l.map Prod.fst → lookupA k l = none
  | [], _ => rfl
  | p :: t, h => by
    have h1 : p.1 ≠ k := fun he => h (by simp [he])
    have h2 : k ∉ t.map Prod.fst := fun hm => h (by simp [hm])
    simp [lookupA, h1, lookupA_eq_none_of_not_mem h2]

theorem lookupA_append_single (k : String) (kv : String × CachedModelResult) :
    ∀ (l : List (String × CachedModelResult)),
      lookupA k (l ++ [kv]) =
        match lookupA k l with
        | some v => some v
        | none => if kv.1 = k then some kv.2 else none
  | [] => rfl
  | p :: t => by
    by_cases h : p.1 = k
    · simp [lookupA, h]
    · simp [lookupA, h, lookupA_append_single k kv t]

theorem lookupA_map_merge (k : String) (kv : String × CachedModelResult) :
    ∀ (l : List (String × CachedModelResult)),
      lookupA k (l.map (fun p => if p.1 = kv.1 then (p.1, mergeModels p.2 kv.2) else p)) =
        if kv.1 = k then (lookupA k l).map (fun e => mergeModels e kv.2) else lookupA k l
  | [] => by by_cases h : kv.1 = k <;> simp [lookupA, h]
  | p :: t => by
    by_cases hp : p.1 = kv.1
    · by_cases hk : kv.1 = k
      · have : p.1 = k := hp.trans hk
        simp [lookupA, hp, hk, this]
      · have : p.1 ≠ k := fun he => hk (hp ▸ he)
        simp [lookupA, hp, hk, this, lookupA_map_merge k kv t]
    · by_cases hpk : p.1 = k
      · have h1 : kv.1 ≠ k := fun he => hp (hpk.trans he.symm)
        have h2 : ¬k = kv.1 := fun he => hp (hpk.trans he)
        simp [lookupA, hp, hpk, h1, h2]
      · simp [lookupA, hp, hpk, lookupA_map_merge k kv t]

theorem lookupA_stepEntry (k : String) (agg : List (String × CachedModelResult))
    (kv : String × CachedModelResult) :
    lookupA k (stepEntry agg kv) =
      if kv.1 = k then some (mergeOpt (lookupA k agg) kv.2) else lookupA k agg := by
  unfold stepEntry
  cases hl : lookupA kv.1 agg with
  | some e =>
    rw [lookupA_map_merge k kv agg]
    by_cases hk : kv.1 = k
    · subst hk
      simp [hl, mergeOpt]
    · simp [hk]
  | none =>
    rw [lookupA_append_single k kv agg]
    by_cases hk : kv.1 = k
    · subst hk
      simp [hl, mergeOpt]
    · cases h2 : lookupA k agg <;> simp [hk]

theorem lookupA_foldl_stepEntry (k : String) :
    ∀ (entries : List (String × CachedModelResult)) (agg : List (String × CachedModelResult)),
      (entries.map Prod.fst).Nodup →
      lookupA k (entries.foldl stepEntry agg) =
        match lookupA k entries with
        | some m => some (mergeOpt (lookupA k agg) m)
        | none => lookupA k agg
  | [], agg, _ => by simp [lookupA]
  | p :: t, agg, hnd => by
    have hnd' : (t.map Prod.fst).Nodup := (List.nodup_cons.mp (by simpa using hnd)).2
    have hpt : p.1 ∉ t.map Prod.fst := (List.nodup_cons.mp (by simpa using hnd)).1
    rw [List.foldl_cons, lookupA_foldl_stepEntry k t (stepEntry agg p) hnd']
    by_cases hk : p.1 = k
    · subst hk
      have ht : lookupA p.1 t = none := lookupA_eq_none_of_not_mem hpt
      simp [lookupA, ht, lookupA_stepEntry]
    · have : lookupA k (stepEntry agg p) = lookupA k agg := by
        rw [lookupA_stepEntry]; simp [hk]
      simp [lookupA, hk, this]

theorem lookupA_foldl_processCache (k : String) :
    ∀ (caches : List EvaluationCache) (agg : List (String × CachedModelResult)),
      (∀ c ∈ caches, keysNodup c) →
      lookupA k (caches.foldl processCache agg) =
        caches.foldl (perKeyStep k) (lookupA k agg)
  | [], _, _ => rfl
  | c :: t, agg, hnd => by
    have hc : keysNodup c := hnd c (by simp)
    have ht : ∀ c' ∈ t, keysNodup c' := fun c' hmem => hnd c' (by simp [hmem])
    rw [List.foldl_cons, List.foldl_cons,
      lookupA_foldl_processCache k t (processCache agg c) ht]
    have : lookupA k (processCache agg c) =
        match lookupA k c.models with
        | some m => some (mergeOpt (lookupA k agg) m)
        | none => lookupA k agg :=
      lookupA_foldl_stepEntry k c.models agg hc
    cases hm : lookupA k c.models <;> simp [this, hm, perKeyStep]

theorem lookupA_aggEntries (k : String) (caches : List EvaluationCache)
    (hnd : ∀ c ∈ caches, keysNodup c) :
    lookupA k (aggEntries caches) = perKeyAgg k caches := by
  unfold aggEntries perKeyAgg
  rw [lookupA_foldl_processCache k caches [] hnd]
  rfl

theorem perKeyAgg_some_fold (k : String) :
    ∀ (caches : List EvaluationCache) (e : CachedModelResult),
      caches.foldl (perKeyStep k) (some e) =
      some ((caches.filterMap (fun c => lookupA k c.models)).foldl mergeModels e)
  | [], _ => rfl
  | c :: t, e => by
    cases hm : lookupA k c.models with
    | none =>
      simp [List.filterMap_cons, hm, perKeyStep, perKeyAgg_some_fold k t e]
    | some m =>
      simp [List.filterMap_cons, hm, perKeyStep, mergeOpt, perKeyAgg_some_fold k t (mergeModels e m)]

theorem perKeyAgg_eq_filterMap (k : String) :
    ∀ (caches : List EvaluationCache),
      perKeyAgg k caches =
        match caches.filterMap (fun c => lookupA k c.models) with
        | [] => none
        | m :: rest => some (rest.foldl mergeModels m)
  | [] => rfl
  | c :: t => by
    unfold perKeyAgg
    cases hm : lookupA k c.models with
    | none =>
      simp only [List.foldl_cons, List.filterMap_cons, hm, perKeyStep]
      exact perKeyAgg_eq_filterMap k t
    | some m =>
      simp [List.foldl_cons, hm, perKeyStep, mergeOpt, List.filterMap_cons,
        perKeyAgg_some_fold k t m]

theorem foldl_mergeModels_fields :
    ∀ (rest : List CachedModelResult) (m0 : CachedModelResult),
      (rest.foldl mergeModels m0).run_count
          = m0.run_count + (rest.map (fun m => m.run_count)).sum ∧
      (rest.foldl mergeModels m0).total_schema_compliance
          = m0.total_schema_compliance + (rest.map (fun m => m.total_schema_compliance)).sum ∧
      (rest.foldl mergeModels m0).total_structural_accuracy
          = m0.total_structural_accuracy + (rest.map (fun m => m.total_structural_accuracy)).sum ∧
      (rest.foldl mergeModels m0).total_semantic_accuracy
          = m0.total_semantic_accuracy + (rest.map (fun m => m.total_semantic_accuracy)).sum ∧
      (rest.foldl mergeModels m0).total_config_accuracy
          = m0.total_config_accuracy + (rest.map (fun m => m.total_config_accuracy)).sum ∧
      (rest.foldl mergeModels m0).total_overall_score
          = m0.total_overall_score + (rest.map (fun m => m.total_overall_score)).sum ∧
      (rest.foldl mergeModels m0).total_cost
          = m0.total_cost + (rest.map (fun m => m.total_cost)).sum ∧
      (rest.foldl mergeModels m0).total_input_tokens
          = m0.total_input_tokens + (rest.map (fun m => m.total_input_tokens)).sum ∧
      (rest.foldl mergeModels m0).total_output_tokens
          = m0.total_output_tokens + (rest.map (fun m => m.total_output_tokens)).sum ∧
      (rest.foldl mergeModels m0).best_score
          = (rest.map (fun m => m.best_score)).foldl max m0.best_score
  | [], m0 => by simp
  | m :: rest, m0 => by
    have ih := foldl_mergeModels_fields rest (mergeModels m0 m)
    simpa [mergeModels, add_assoc] using ih

/-- C2: for the read-time aggregation over per-source caches, every model key
present in at least one cache gets an aggregated entry whose run_count and
running totals are the sums, over exactly the caches containing that key, of
the per-cache values, and whose best_score is the maximum over those caches
(the fold of `max` over the nonempty list of per-cache best scores); a cache
not containing the key contributes nothing, since `m0 :: rest` collects the
entries of exactly the caches whose model object contains the key. -/
theorem aggregation_law_per_key (caches : List EvaluationCache) (k : String)
    (m0 : CachedModelResult) (rest : List CachedModelResult)
    (hnd : ∀ c ∈ caches, keysNodup c)
    (hks : caches.filterMap (fun c => lookupA k c.models) = m0 :: rest) :
    ∃ r, lookupA k (aggEntries caches) = some r ∧
      r.run_count = ((m0 :: rest).map (fun m => m.run_count)).sum ∧
      r.total_schema_compliance = ((m0 :: rest).map (fun m => m.total_schema_compliance)).sum ∧
      r.total_structural_accuracy = ((m0 :: rest).map (fun m => m.total_structural_accuracy)).sum ∧
      r.total_semantic_accuracy = ((m0 :: rest).map (fun m => m.total_semantic_accuracy)).sum ∧
      r.total_config_accuracy = ((m0 :: rest).map (fun m => m.total_config_accuracy)).sum ∧
      r.total_overall_score = ((m0 :: rest).map (fun m => m.total_overall_score)).sum ∧
      r.total_cost = ((m0 :: rest).map (fun m => m.total_cost)).sum ∧
      r.total_input_tokens = ((m0 :: rest).map (fun m => m.total_input_tokens)).sum ∧
      r.total_output_tokens = ((m0 :: rest).map (fun m => m.total_output_tokens)).sum ∧
      r.best_score = (rest.map (fun m => m.best_score)).foldl max m0.best_score := by
  have h1 : lookupA k (aggEntries caches) = some (rest.foldl mergeModels m0) := by
    rw [lookupA_aggEntries k caches hnd, perKeyAgg_eq_filterMap k caches, hks]
  obtain ⟨e1, e2, e3, e4, e5, e6, e7, e8, e9, e10⟩ := foldl_mergeModels_fields rest m0
  exact ⟨rest.foldl mergeModels m0, h1, by simp [e1], by simp [e2], by simp [e3], by simp [e4],
    by simp [e5], by simp [e6], by simp [e7], by simp [e8], by simp [e9], e10⟩

/-- Sample run-history entries used by concrete witnesses. -/
def sampleEntry1 : RunHistoryEntry :=
  { timestamp := "2024-01-02T00:00:00Z"
    overall_score := 4/5
    schema_compliance := 1
    structural_accuracy := 3/4
    semantic_accuracy := 7/10
    config_accuracy := 9/10
    cost := some (2/100)
    input_tokens := some 120
    output_tokens := some 60 }

def sampleEntry2 : RunHistoryEntry :=
  { timestamp := "2024-03-05T00:00:00Z"
    overall_score := 3/5
    schema_compliance := 9/10
    structural_accuracy := 1/2
    semantic_accuracy := 2/5
    config_accuracy := 7/10
    cost := some (1/100)
    input_tokens := some 100
    output_tokens := some 50 }

def sampleModelA : CachedModelResult := recordRun (initModel "gpt-5" "openai") sampleEntry1

def sampleModelB : CachedModelResult := recordRun (initModel "gpt-5" "openai") sampleEntry2

def sampleModelC : CachedModelResult :=
  recordRun (initModel "gemini-2.5-flash" "google") sampleEntry2

def sampleCacheA : EvaluationCache :=
  { source_file := "evaluation_results/cache_doc_a.json"
    last_updated := "2024-01-02T00:00:00Z"
    models := [("openai:gpt-5", sampleModelA)] }

def sampleCacheB : EvaluationCache :=
  { source_file := "evaluation_results/cache_doc_b.json"
    last_updated := "2024-03-05T00:00:00Z"
    models := [("openai:gpt-5", sampleModelB)] }

def sampleCacheC : EvaluationCache :=
  { source_file := "evaluation_results/cache_doc_c.json"
    last_updated := "2024-03-05T00:00:00Z"
    models := [("google:gemini-2.5-flash", sampleModelC)] }

/-- Witness for C2: three concrete caches, the key present in two of them. -/
theorem aggregation_law_per_key_witness :
    (∀ c ∈ [sampleCacheA, sampleCacheB, sampleCacheC], keysNodup c) ∧
    [sampleCacheA, sampleCacheB, sampleCacheC].filterMap
        (fun c => lookupA "openai:gpt-5" c.models) = [sampleModelA, sampleModelB] ∧
    ∃ r, lookupA "openai:gpt-5" (aggEntries [sampleCacheA, sampleCacheB, sampleCacheC]) = some r ∧
      r.run_count = (([sampleModelA, sampleModelB]).map (fun m => m.run_count)).sum ∧
      r.total_schema_compliance
        = (([sampleModelA, sampleModelB]).map (fun m => m.total_schema_compliance)).sum ∧
      r.total_structural_accuracy
        = (([sampleModelA, sampleModelB]).map (fun m => m.total_structural_accuracy)).sum ∧
      r.total_semantic_accuracy
        = (([sampleModelA, sampleModelB]).map (fun m => m.total_semantic_accuracy)).sum ∧
      r.total_config_accuracy
        = (([sampleModelA, sampleModelB]).map (fun m => m.total_config_accuracy)).sum ∧
      r.total_overall_score
        = (([sampleModelA, sampleModelB]).map (fun m => m.total_overall_score)).sum ∧
      r.total_cost = (([sampleModelA, sampleModelB]).map (fun m => m.total_cost)).sum ∧
      r.total_input_tokens
        = (([sampleModelA, sampleModelB]).map (fun m => m.total_input_tokens)).sum ∧
      r.total_output_tokens
        = (([sampleModelA, sampleModelB]).map (fun m => m.total_output_tokens)).sum ∧
      r.best_score = ([sampleModelB].map (fun m => m.best_score)).foldl max sampleModelA.best_score :=
  ⟨by simp [keysNodup, sampleCacheA, sampleCacheB, sampleCacheC],
    by simp [sampleCacheA, sampleCacheB, sampleCacheC, lookupA],
    aggregation_law_per_key [sampleCacheA, sampleCacheB, sampleCacheC] "openai:gpt-5"
      sampleModelA [sampleModelB]
      (by simp [keysNodup, sampleCacheA, sampleCacheB, sampleCacheC])
      (by simp [sampleCacheA, sampleCacheB, sampleCacheC, lookupA])⟩

theorem recordRun_preserves_invariant (m : CachedModelResult) (e : RunHistoryEntry)
    (h : cacheInvariant m) : cacheInvariant (recordRun m e) := by
  obtain ⟨h1, h2, h3, h4, h5, h6, h7, h8, h9⟩ := h
  refine ⟨?_, ?_, ?_, ?_, ?_, ?_, ?_, ?_, ?_⟩ <;>
    simp [recordRun, h1, h2, h3, h4, h5, h6, h7, h8, h9]

theorem foldl_recordRun_invariant :
    ∀ (hs : List RunHistoryEntry) (m : CachedModelResult),
      cacheInvariant m → cacheInvariant (hs.foldl recordRun m)
  | [], _, h => h
  | e :: t, m, h =>
    foldl_recordRun_invariant t (recordRun m e) (recordRun_preserves_invariant m e h)

/-- C3 (amended): every CachedModelResult produced by a sequence of `record`
calls satisfies run_count = length(run_history) and total_X = sum of X over
run_history; but the read-time merge of `aggregateCaches` keeps only the
existing entry's run_history while summing run_count, so a merged value kept
by the hook can violate the invariant when the key occurs in more than one
source cache. -/
theorem record_preserves_ledger_invariant :
    (∀ (mid prov : String) (hs : List RunHistoryEntry),
      cacheInvariant (hs.foldl recordRun (initModel mid prov))) ∧
    (∀ e m : CachedModelResult, (mergeModels e m).run_history = e.run_history ∧
      (mergeModels e m).run_count = e.run_count + m.run_count) := by
  constructor
  · intro mid prov hs
    exact foldl_recordRun_invariant hs (initModel mid prov)
      (by simp [cacheInvariant, initModel])
  · intro e m
    exact ⟨rfl, rfl⟩

/-- Counterexample for C3 as stated: two concrete single-run caches for the
same model key, each satisfying the invariant; the value the aggregation
produces for that key has run_count 2 but a run_history of length 1. -/
theorem merged_model_history_invariant_cex :
    cacheInvariant sampleModelA ∧ cacheInvariant sampleModelB ∧
    ∃ r, lookupA "openai:gpt-5" (aggEntries [sampleCacheA, sampleCacheB]) = some r ∧
      r.run_count = 2 ∧ r.run_history.length = 1 ∧ r.run_count ≠ r.run_history.length := by
  refine ⟨?_, ?_, mergeModels sampleModelA sampleModelB, ?_, ?_, ?_, ?_⟩
  · simp [cacheInvariant, sampleModelA, recordRun, initModel]
  · simp [cacheInvariant, sampleModelB, recordRun, initModel]
  · simp [aggEntries, processCache, stepEntry, lookupA, sampleCacheA, sampleCacheB]
  · simp [mergeModels, sampleModelA, sampleModelB, recordRun, initModel]
  · simp [mergeModels, sampleModelA, recordRun, initModel]
  · simp [mergeModels, sampleModelA, sampleModelB, recordRun, initModel]

/-- C4 (amended): when merging a model key across source caches, the merged
latest_run_timestamp is the lexicographically greatest of the two sources'
timestamps (both being nonempty), while the merged latest_score is the
maximum of the two sources' latest scores — the two components are chosen
independently, not taken together from the source with the greatest
timestamp. -/
theorem merge_latest_components_independent (e m : CachedModelResult) (mt et : String)
    (hm : m.latest_run_timestamp = some mt) (he : e.latest_run_timestamp = some et)
    (hmt : mt ≠ "") (het : et ≠ "") :
    (mergeModels e m).latest_score = max e.latest_score m.latest_score ∧
    (mergeModels e m).latest_run_timestamp = some (if et < mt then mt else et) := by
  constructor
  · rcases lt_or_ge e.latest_score m.latest_score with h | h
    · simp [mergeModels, h, max_eq_right h.le]
    · simp [mergeModels, not_lt.mpr h, max_eq_left h]
  · simp [mergeModels, tsMerge, hm, he, hmt, het]

def earlyHighModel : CachedModelResult :=
  recordRun (initModel "gpt-5" "openai")
    { timestamp := "2024-01-01T00:00:00Z"
      overall_score := 9/10
      schema_compliance := 1
      structural_accuracy := 9/10
      semantic_accuracy := 9/10
      config_accuracy := 9/10
      cost := some (3/100)
      input_tokens := some 150
      output_tokens := some 70 }

def lateLowModel : CachedModelResult :=
  recordRun (initModel "gpt-5" "openai")
    { timestamp := "2024-06-01T00:00:00Z"
      overall_score := 1/2
      schema_compliance := 1/2
      structural_accuracy := 1/2
      semantic_accuracy := 1/2
      config_accuracy := 1/2
      cost := some (1/100)
      input_tokens := some 90
      output_tokens := some 40 }

def earlyHighCache : EvaluationCache :=
  { source_file := "evaluation_results/cache_doc_x.json"
    last_updated := "2024-01-01T00:00:00Z"
    models := [("openai:gpt-5", earlyHighModel)] }

def lateLowCache : EvaluationCache :=
  { source_file := "evaluation_results/cache_doc_y.json"
    last_updated := "2024-06-01T00:00:00Z"
    models := [("openai:gpt-5", lateLowModel)] }

/-- Witness for C4 (amended), at the two concrete models. -/
theorem merge_latest_components_independent_witness :
    lateLowModel.latest_run_timestamp = some "2024-06-01T00:00:00Z" ∧
    earlyHighModel.latest_run_timestamp = some "2024-01-01T00:00:00Z" ∧
    (mergeModels earlyHighModel lateLowModel).latest_score
      = max earlyHighModel.latest_score lateLowModel.latest_score ∧
    (mergeModels earlyHighModel lateLowModel).latest_run_timestamp
      = some (if "2024-01-01T00:00:00Z" < "2024-06-01T00:00:00Z"
          then "2024-06-01T00:00:00Z" else "2024-01-01T00:00:00Z") :=
  ⟨rfl, rfl,
    (merge_latest_components_independent earlyHighModel lateLowModel
      "2024-06-01T00:00:00Z" "2024-01-01T00:00:00Z" rfl rfl (by simp) (by simp)).1,
    (merge_latest_components_independent earlyHighModel lateLowModel
      "2024-06-01T00:00:00Z" "2024-01-01T00:00:00Z" rfl rfl (by simp) (by simp)).2⟩

/-- Counterexample for C4 as stated: the source cache with the later
timestamp has latest_score 1/2, but the merged entry pairs that later
timestamp with the other source's higher score 9/10. -/
theorem merge_latest_by_timestamp_cex :
    earlyHighModel.latest_run_timestamp = some "2024-01-01T00:00:00Z" ∧
    lateLowModel.latest_run_timestamp = some "2024-06-01T00:00:00Z" ∧
    ("2024-01-01T00:00:00Z" : String) < "2024-06-01T00:00:00Z" ∧
    lateLowModel.latest_score = 1/2 ∧
    ∃ r, lookupA "openai:gpt-5" (aggEntries [earlyHighCache, lateLowCache]) = some r ∧
      r.latest_run_timestamp = some "2024-06-01T00:00:00Z" ∧
      r.latest_score = 9/10 ∧
      r.latest_score ≠ lateLowModel.latest_score := by
  refine ⟨rfl, rfl, by rw [String.lt_iff_toList_lt]; decide, rfl,
    mergeModels earlyHighModel lateLowModel, ?_, ?_, ?_, ?_⟩
  · simp [aggEntries, processCache, stepEntry, lookupA, earlyHighCache, lateLowCache]
  · simp [mergeModels, tsMerge, earlyHighModel, lateLowModel, recordRun, initModel]
    decide
  · simp [mergeModels, earlyHighModel, lateLowModel, recordRun, initModel]
    norm_num
  · simp [mergeModels, earlyHighModel, lateLowModel, recordRun, initModel]
    norm_num

/-- C1: the four aggregate weights (the constants displayed and applied by
StackedChart, cited there as AGGREGATE_WEIGHTS of scorer.py) sum to 1, the
spec-modelled AggregateScorer computes overall_score as exactly this linear
combination, and the stacked chart weights each displayed category by the
same constants. -/
theorem overall_score_weighted_policy :
    schemaWeight + structureWeight + semanticWeight + configWeight = 1 ∧
    (∀ sc st se cf : ℚ, (aggregateScorer sc st se cf).overall_score =
      schemaWeight * sc + structureWeight * st + semanticWeight * se + configWeight * cf) ∧
    (∀ d : ModelChartData,
      (stackedDatumOf d).schema = jsRound ((d.schema : ℚ) * schemaWeight) ∧
      (stackedDatumOf d).structure_ = jsRound ((d.structure_ : ℚ) * structureWeight) ∧
      (stackedDatumOf d).semantic = jsRound ((d.semantic : ℚ) * semanticWeight) ∧
      (stackedDatumOf d).config = jsRound ((d.config : ℚ) * configWeight)) :=
  ⟨by norm_num [schemaWeight, structureWeight, semanticWeight, configWeight],
    fun _ _ _ _ => rfl, fun _ => ⟨rfl, rfl, rfl, rfl⟩⟩

/-- C5: per-model averages are computed at read time as total over
run_count — for every model entry with at least one run the chart datum
divides the stored totals by run_count (and rounds to a percentage), the
summary average is the mean of the per-model ratios, and a cache with no
model entries yields a null average. -/
theorem read_time_averages (c : EvaluationCache) :
    (∀ kv ∈ c.models, 1 ≤ kv.2.run_count →
      (datumOfModel kv).overall
        = jsRound (kv.2.total_overall_score / (kv.2.run_count : ℚ) * 100) ∧
      (datumOfModel kv).schema
        = jsRound (kv.2.total_schema_compliance / (kv.2.run_count : ℚ) * 100) ∧
      (datumOfModel kv).structure_
        = jsRound (kv.2.total_structural_accuracy / (kv.2.run_count : ℚ) * 100) ∧
      (datumOfModel kv).semantic
        = jsRound (kv.2.total_semantic_accuracy / (kv.2.run_count : ℚ) * 100) ∧
      (datumOfModel kv).config
        = jsRound (kv.2.total_config_accuracy / (kv.2.run_count : ℚ) * 100) ∧
      (datumOfModel kv).averageCost = kv.2.total_cost / (kv.2.run_count : ℚ)) ∧
    (c.models = [] → (evalSummaryOf c).average_score = none) ∧
    (c.models ≠ [] → (evalSummaryOf c).average_score =
      some ((c.models.map (fun kv => kv.2.total_overall_score / (kv.2.run_count : ℚ))).sum
        / (c.models.length : ℚ))) := by
  refine ⟨?_, ?_, ?_⟩
  · intro kv _ hrc
    have h0 : 0 < kv.2.run_count := hrc
    exact ⟨by simp [datumOfModel, h0], by simp [datumOfModel, h0], by simp [datumOfModel, h0],
      by simp [datumOfModel, h0], by simp [datumOfModel, h0], by simp [datumOfModel, h0]⟩
  · intro h
    simp [evalSummaryOf, h]
  · intro h
    have hlen : 0 < c.models.length := List.length_pos.mpr h
    simp [evalSummaryOf, hlen]

/-- Witness for C5, at a concrete one-model cache. -/
theorem read_time_averages_witness :
    ("openai:gpt-5", sampleModelA) ∈ sampleCacheA.models ∧
    1 ≤ sampleModelA.run_count ∧
    (datumOfModel ("openai:gpt-5", sampleModelA)).overall
      = jsRound (sampleModelA.total_overall_score / (sampleModelA.run_count : ℚ) * 100) ∧
    sampleCacheA.models ≠ [] ∧
    (evalSummaryOf sampleCacheA).average_score =
      some ((sampleCacheA.models.map
          (fun kv => kv.2.total_overall_score / (kv.2.run_count : ℚ))).sum
        / (sampleCacheA.models.length : ℚ)) :=
  ⟨by simp [sampleCacheA], by simp [sampleModelA, recordRun, initModel],
    ((read_time_averages sampleCacheA).1 ("openai:gpt-5", sampleModelA)
      (by simp [sampleCacheA]) (by simp [sampleModelA, recordRun, initModel])).1,
    by simp [sampleCacheA],
    (read_time_averages sampleCacheA).2.2 (by simp [sampleCacheA])⟩

/-- C6: loading a ledger never propagates a fatal error: on a missing,
unreadable or corrupt ledger file, `readJsonFile` and `loadCache` return the
empty no-history result `none` instead of raising (both are total
functions), the PDF list then shows no score for that source, and on every
file state `loadCache` either degrades to `none` or returns the parsed
cache. -/
theorem ledger_load_never_fatal :
    readJsonFile .absent = none ∧ readJsonFile .invalid = none ∧
    loadCache .absent = none ∧ loadCache .invalid = none ∧
    pdfBestDisplay .absent = none ∧ pdfBestDisplay .invalid = none ∧
    ∀ f : FileContent, loadCache f = none ∨
      ∃ c, readJsonFile f = some c ∧ loadCache f = some
        { cache := c, best_score := docBestScore c.models, average_score := docAvgScore c.models } := by
  refine ⟨rfl, rfl, rfl, rfl, rfl, rfl, ?_⟩
  intro f
  cases f with
  | absent => exact Or.inl rfl
  | invalid => exact Or.inl rfl
  | valid c => exact Or.inr ⟨c, rfl, rfl⟩

theorem reachable_activeRuns : ∀ {s : ServerState}, ReachableState s →
    s.activeRuns = if s.pipelineRunning then 1 else 0 := by
  intro s h
  induction h with
  | init => rfl
  | @post t ht ih =>
    by_cases hr : t.pipelineRunning
    · simpa [postRun, hr] using ih
    · simp [hr] at ih
      simp [postRun, hr, ih]
  | @finish t ht hge ih =>
    by_cases hr : t.pipelineRunning
    · simp [hr] at ih
      simp [finishRun, ih]
    · simp [hr] at ih
      omega

/-- C7: in every reachable server state at most one pipeline process is in
progress; while the running flag is set a further run request returns the
error response unchanged in state and spawns nothing; a spawn happens only
from the idle state; and the flag is cleared exactly by the process exit or
failure transition. -/
theorem single_pipeline_run (s : ServerState) (h : ReachableState s) :
    s.activeRuns ≤ 1 ∧
    (s.pipelineRunning = true → postRun s = (s, false)) ∧
    ((postRun s).2 = true → s.pipelineRunning = false ∧
      (postRun s).1 = { pipelineRunning := true, activeRuns := s.activeRuns + 1 }) ∧
    (finishRun s).pipelineRunning = false := by
  have hinv := reachable_activeRuns h
  refine ⟨?_, ?_, ?_, rfl⟩
  · by_cases hr : s.pipelineRunning <;> simp [hr] at hinv <;> omega
  · intro hr
    simp [postRun, hr]
  · intro hsp
    by_cases hr : s.pipelineRunning
    · simp [postRun, hr] at hsp
    · exact ⟨by simp [hr], by simp [postRun, hr]⟩

/-- Witness for C7, at the reachable state with one running pipeline. -/
theorem single_pipeline_run_witness :
    ({ pipelineRunning := true, activeRuns := 1 } : ServerState).activeRuns ≤ 1 ∧
    postRun { pipelineRunning := true, activeRuns := 1 }
      = ({ pipelineRunning := true, activeRuns := 1 }, false) := by
  have hr : ReachableState { pipelineRunning := true, activeRuns := 1 } := by
    have h := ReachableState.post ReachableState.init
    simpa [postRun] using h
  exact ⟨(single_pipeline_run _ hr).1, (single_pipeline_run _ hr).2.1 rfl⟩

theorem sorted_sortByOverallDesc (l : List ModelChartData) :
    List.Sorted chartGE (sortByOverallDesc l) :=
  List.sorted_insertionSort chartGE l

theorem head_max_of_sorted {l : List ModelChartData} {d0 : ModelChartData}
    {rest : List ModelChartData} (hs : List.Sorted chartGE l) (he : l = d0 :: rest) :
    ∀ d ∈ l, d.overall ≤ d0.overall := by
  subst he
  intro d hd
  rcases List.mem_cons.mp hd with h | h
  · exact h ▸ le_refl _
  · exact (List.pairwise_cons.mp hs).1 d h

/-- C8: the chart-data list of the evaluation-data hook is sorted in
non-increasing order of the rounded average overall score, in both the
single-cache view and the aggregated all-files view, so its first element
attains the maximal listed score (the value the UI shows as Best Score and
Top Model). -/
theorem chart_sorted_by_rounded_average (c : EvaluationCache) (caches : List EvaluationCache) :
    List.Sorted chartGE (transformToChartData c) ∧
    List.Sorted chartGE (aggregateCaches caches) ∧
    (∀ d0 rest, transformToChartData c = d0 :: rest →
      ∀ d ∈ transformToChartData c, d.overall ≤ d0.overall) ∧
    (∀ d0 rest, aggregateCaches caches = d0 :: rest →
      ∀ d ∈ aggregateCaches caches, d.overall ≤ d0.overall) :=
  ⟨sorted_sortByOverallDesc _, sorted_sortByOverallDesc _,
    fun _ _ he => head_max_of_sorted (sorted_sortByOverallDesc _) he,
    fun _ _ he => head_max_of_sorted (sorted_sortByOverallDesc _) he⟩

/-- Witness for C8, at a concrete one-model cache and a concrete two-cache
aggregation. -/
theorem chart_sorted_by_rounded_average_witness :
    transformToChartData sampleCacheA = [datumOfModel ("openai:gpt-5", sampleModelA)] ∧
    (∀ d ∈ transformToChartData sampleCacheA,
      d.overall ≤ (datumOfModel ("openai:gpt-5", sampleModelA)).overall) ∧
    aggregateCaches [sampleCacheA, sampleCacheB]
      = [datumOfModel ("openai:gpt-5", mergeModels sampleModelA sampleModelB)] ∧
    (∀ d ∈ aggregateCaches [sampleCacheA, sampleCacheB],
      d.overall ≤ (datumOfModel ("openai:gpt-5", mergeModels sampleModelA sampleModelB)).overall) := by
  have h1 : transformToChartData sampleCacheA
      = [datumOfModel ("openai:gpt-5", sampleModelA)] := by
    simp [transformToChartData, sortByOverallDesc, sampleCacheA, List.insertionSort]
  have h2 : aggregateCaches [sampleCacheA, sampleCacheB]
      = [datumOfModel ("openai:gpt-5", mergeModels sampleModelA sampleModelB)] := by
    simp [aggregateCaches, aggEntries, processCache, stepEntry, lookupA,
      sampleCacheA, sampleCacheB, sortByOverallDesc, List.insertionSort]
  exact ⟨h1,
    (chart_sorted_by_rounded_average sampleCacheA [sampleCacheA, sampleCacheB]).2.2.1 _ _ h1,
    h2,
    (chart_sorted_by_rounded_average sampleCacheA [sampleCacheA, sampleCacheB]).2.2.2 _ _ h2⟩

theorem bestFold_go :
    ∀ (models : List (String × CachedModelResult)) (acc : Option String × ℚ), 0 ≤ acc.2 →
      0 ≤ (models.foldl bestStep acc).2 ∧
      ∀ k, (models.foldl bestStep acc).1 = some k →
        (acc.1 = some k ∧ (models.foldl bestStep acc).2 = acc.2) ∨
        ∃ m, (k, m) ∈ models ∧ (models.foldl bestStep acc).2 = m.best_score ∧ 0 < m.best_score
  | [], _, h0 => ⟨h0, fun _ hk => Or.inl ⟨hk, rfl⟩⟩
  | ⟨k1, m1⟩ :: t, acc, h0 => by
    rw [List.foldl_cons]
    by_cases hlt : acc.2 < m1.best_score
    · have hstep : bestStep acc (k1, m1) = (some k1, m1.best_score) := by simp [bestStep, hlt]
      rw [hstep]
      have hpos : 0 < m1.best_score := lt_of_le_of_lt h0 hlt
      obtain ⟨ih0, ih1⟩ := bestFold_go t (some k1, m1.best_score) hpos.le
      refine ⟨ih0, ?_⟩
      intro k hk
      rcases ih1 k hk with ⟨ha, hv⟩ | ⟨m, hm, hv, hp⟩
      · obtain rfl : k1 = k := Option.some.inj ha
        exact Or.inr ⟨m1, List.mem_cons_self _ _, hv, hpos⟩
      · exact Or.inr ⟨m, List.mem_cons_of_mem _ hm, hv, hp⟩
    · have hstep : bestStep acc (k1, m1) = acc := by simp [bestStep, hlt]
      rw [hstep]
      obtain ⟨ih0, ih1⟩ := bestFold_go t acc h0
      refine ⟨ih0, ?_⟩
      intro k hk
      rcases ih1 k hk with h | ⟨m, hm, hv, hp⟩
      · exact Or.inl h
      · exact Or.inr ⟨m, List.mem_cons_of_mem _ hm, hv, hp⟩

theorem bestFold_zero :
    ∀ (models : List (String × CachedModelResult)),
      (∀ kv ∈ models, kv.2.best_score = 0) →
      models.foldl bestStep ((none : Option String), (0 : ℚ)) = (none, 0)
  | [], _ => rfl
  | kv :: t, h => by
    have h1 : kv.2.best_score = 0 := h kv (List.mem_cons_self _ _)
    have hstep : bestStep ((none : Option String), (0 : ℚ)) kv = (none, 0) := by
      simp [bestStep, h1]
    rw [List.foldl_cons, hstep]
    exact bestFold_zero t (fun kv' h' => h kv' (List.mem_cons_of_mem _ h'))

/-- C9: in the per-source summary a model becomes best_model only when its
best_score is strictly positive (and then the reported best_score is that
model's), while a cache whose models all have best_score 0 — or no models
at all — reports both best_model and best_score as null. -/
theorem best_model_requires_positive_score (c : EvaluationCache) :
    (∀ k, (evalSummaryOf c).best_model = some k →
      ∃ m, (k, m) ∈ c.models ∧ 0 < m.best_score ∧
        (evalSummaryOf c).best_score = some m.best_score) ∧
    ((∀ kv ∈ c.models, kv.2.best_score = 0) →
      (evalSummaryOf c).best_model = none ∧ (evalSummaryOf c).best_score = none) ∧
    (c.models = [] →
      (evalSummaryOf c).best_model = none ∧ (evalSummaryOf c).best_score = none) := by
  refine ⟨?_, ?_, ?_⟩
  · intro k hk
    have hk' : (c.models.foldl bestStep (none, 0)).1 = some k := by
      simpa [evalSummaryOf, bestFold] using hk
    have hg := bestFold_go c.models (none, 0) le_rfl
    rcases hg.2 k hk' with ⟨ha, _⟩ | ⟨m, hm, hv, hp⟩
    · exact absurd ha (by simp)
    · refine ⟨m, hm, hp, ?_⟩
      have hb : (bestFold c.models).2 = m.best_score := hv
      simp [evalSummaryOf, hb, hp.ne']
  · intro hz
    have hfold := bestFold_zero c.models hz
    constructor <;> simp [evalSummaryOf, bestFold, hfold]
  · intro h
    constructor <;> simp [evalSummaryOf, bestFold, h]

def zeroModel : CachedModelResult := initModel "gpt-5-nano" "openai"

def zeroCache : EvaluationCache :=
  { source_file := "evaluation_results/cache_doc_z.json"
    last_updated := "2024-01-01T00:00:00Z"
    models := [("openai:gpt-5-nano", zeroModel)] }

/-- Witness for C9: a cache whose only model has a positive best score, and
a cache whose only model has best score 0. -/
theorem best_model_requires_positive_score_witness :
    (evalSummaryOf sampleCacheA).best_model = some "openai:gpt-5" ∧
    (∃ m, ("openai:gpt-5", m) ∈ sampleCacheA.models ∧ 0 < m.best_score ∧
      (evalSummaryOf sampleCacheA).best_score = some m.best_score) ∧
    (∀ kv ∈ zeroCache.models, kv.2.best_score = 0) ∧
    (evalSummaryOf zeroCache).best_model = none ∧
    (evalSummaryOf zeroCache).best_score = none := by
  have hbm : (evalSummaryOf sampleCacheA).best_model = some "openai:gpt-5" := by
    simp [evalSummaryOf, bestFold, bestStep, sampleCacheA, sampleModelA, sampleEntry1,
      recordRun, initModel]
  have hz : ∀ kv ∈ zeroCache.models, kv.2.best_score = 0 := by
    simp [zeroCache, zeroModel, initModel]
  exact ⟨hbm, (best_model_requires_positive_score sampleCacheA).1 "openai:gpt-5" hbm, hz,
    ((best_model_requires_positive_score zeroCache).2.1 hz).1,
    ((best_model_requires_positive_score zeroCache).2.1 hz).2⟩

theorem docBest_fold_some :
    ∀ (models : List (String × JsonModelEntry)) (b : ℚ),
      models.foldl docBestStep (some b)
        = some ((models.filterMap (fun kv => modelScoreOf kv.2)).foldl max b)
  | [], _ => rfl
  | kv :: t, b => by
    rw [List.foldl_cons, List.filterMap_cons]
    cases hs : modelScoreOf kv.2 with
    | none => simp [docBestStep, hs, docBest_fold_some t b]
    | some s =>
      have hstep : docBestStep (some b) kv = some (max b s) := by
        by_cases h : b < s
        · simp [docBestStep, hs, h, max_eq_right h.le]
        · simp [docBestStep, hs, h, max_eq_left (not_lt.mp h)]
      simp [hstep, hs, docBest_fold_some t (max b s)]

/-- C10: the per-document best score exposed by the documents server equals
the maximum over the cache's model entries of each entry's latest_score,
with the stored best_score used only as a fallback when latest_score is
absent; and the PDF list displays exactly this value as a rounded
percentage when it is nonzero. -/
theorem doc_best_score_prefers_latest (models : List (String × JsonModelEntry))
    (s0 : ℚ) (rest : List ℚ)
    (hks : models.filterMap (fun kv => modelScoreOf kv.2) = s0 :: rest) :
    docBestScore models = some (rest.foldl max s0) ∧
    (∀ (e : JsonModelEntry) (s : ℚ), e.latest_score = some s → modelScoreOf e = some s) ∧
    (∀ e : JsonModelEntry, e.latest_score = none → modelScoreOf e = e.best_score) ∧
    (∀ (f : FileContent) (c : JsonCache) (s : ℚ), readJsonFile f = some c →
      docBestScore c.models = some s → s ≠ 0 →
      pdfBestDisplay f = some (jsRound (s * 100))) := by
  refine ⟨?_, ?_, ?_, ?_⟩
  · unfold docBestScore
    revert hks
    induction models with
    | nil => intro hks; cases hks
    | cons kv t ih =>
      intro hks
      rw [List.filterMap_cons] at hks
      rw [List.foldl_cons]
      cases hs : modelScoreOf kv.2 with
      | none =>
        rw [hs] at hks
        simpa [docBestStep, hs] using ih hks
      | some s =>
        rw [hs] at hks
        obtain ⟨rfl, hrest⟩ : s = s0 ∧ t.filterMap (fun kv => modelScoreOf kv.2) = rest := by
          constructor <;> [exact (List.cons.inj hks).1; exact (List.cons.inj hks).2]
        have hstep : docBestStep none kv = some s := by simp [docBestStep, hs]
        rw [hstep, docBest_fold_some t s, hrest]
  · intro e s h
    simp [modelScoreOf, h]
  · intro e h
    simp [modelScoreOf, h]
  · intro f c s hread hbest hnz
    cases f with
    | absent => cases hread
    | invalid => cases hread
    | valid c' =>
      obtain rfl : c' = c := Option.some.inj hread
      simp [pdfBestDisplay, loadCache, readJsonFile, hbest, hnz]

def jsonEntryLatest : JsonModelEntry := { latest_score := some (3/5), best_score := some (9/10) }

def jsonEntryFallback : JsonModelEntry := { latest_score := none, best_score := some (7/10) }

def jsonSampleCache : JsonCache :=
  { source_file := "doc_a.json"
    models := [("openai:gpt-5", jsonEntryLatest), ("google:gemini-2.5-flash", jsonEntryFallback)] }

/-- Witness for C10: a concrete raw cache where one entry has a latest score
(3/5, preferred over its higher stored best 9/10) and the other only a
stored best (7/10, used as fallback); the document best is 7/10, not the
9/10 that the stored best_score maximum would give. -/
theorem doc_best_score_prefers_latest_witness :
    jsonSampleCache.models.filterMap (fun kv => modelScoreOf kv.2) = [3/5, 7/10] ∧
    docBestScore jsonSampleCache.models = some ([(7/10 : ℚ)].foldl max (3/5)) ∧
    pdfBestDisplay (.valid jsonSampleCache) = some (jsRound ((7/10) * 100)) := by
  have hfm : jsonSampleCache.models.filterMap (fun kv => modelScoreOf kv.2)
      = [3/5, 7/10] := by
    simp [jsonSampleCache, jsonEntryLatest, jsonEntryFallback, modelScoreOf]
  have h1 := (doc_best_score_prefers_latest jsonSampleCache.models (3/5) [7/10] hfm).1
  have h2 : docBestScore jsonSampleCache.models = some (7/10) := by
    rw [h1]; norm_num
  exact ⟨hfm, h1,
    (doc_best_score_prefers_latest jsonSampleCache.models (3/5) [7/10] hfm).2.2.2
      (.valid jsonSampleCache) jsonSampleCache (7/10) rfl h2 (by norm_num)⟩
